import Mathlib

/-!
Verification of the AI-Swarm graph-orchestration engine and its two
instantiations (supervisor swarm, handoff swarm).

The routers and graph wiring are translated from the repository sources
`src/supervisor_swarm.py` and `src/handoff_pattern.py`.  The execution
engine itself (node execution, state merge, routing, step bound) lives in
the external langgraph library, so it is modelled from the specification
(sections 4.2 and 4.4); definitions doing so carry a doc comment starting
with "Modelled from the spec:".  Language-model calls are opaque external
collaborators and appear as oracle function parameters.
-/

namespace AISwarm

/-- A role-tagged chat message (spec section 3: role tag plus content text). -/
structure Message where
  role : String
  content : String
deriving DecidableEq, Repr

/-- The END sentinel: langgraph's `END` constant is the string `"__end__"`,
as visible in the `Literal[..., "__end__"]` annotation of `route_next`. -/
def END : String := "__end__"

/-- The run state threaded through a graph: the message sequence of
`MessagesState` plus the two scalar control fields that `route_next` in
`src/handoff_pattern.py` reads (`next_agent`, `task_complete`).  A `none`
control field models a key absent from the Python state dict. -/
structure AgentState where
  messages : List Message
  next_agent : Option String := none
  task_complete : Option Bool := none
deriving DecidableEq, Repr

/-- A partial state update returned by a node: only the fields present
(messages to append, control fields to overwrite). -/
structure StateUpdate where
  messages : List Message := []
  next_agent : Option String := none
  task_complete : Option Bool := none
deriving DecidableEq, Repr

/-- Modelled from the spec: section 4.4 State Merge.  Message-sequence
fields merge by concatenation (update appended after existing); scalar
control fields are last-write-wins, a field absent from the update leaves
the existing value untouched. -/
def mergeState (s : AgentState) (u : StateUpdate) : AgentState :=
  { messages := s.messages ++ u.messages
    next_agent := match u.next_agent with
      | some v => some v
      | none => s.next_agent
    task_complete := match u.task_complete with
      | some v => some v
      | none => s.task_complete }

/-- Modelled from the spec: section 7 error taxonomy of the engine. -/
inductive RunError where
  | ConfigurationError
  | RoutingError
  | ExecutionLimitExceeded
deriving DecidableEq, Repr

/-- An edge out of a node: either a static target or a conditional router
(spec section 3: exactly one of the two applies per source node). -/
inductive EdgeSpec where
  | toNode (target : String)
  | byRouter (router : AgentState → String)

/-- A compiled graph: node registry, edge table, start node id
(spec section 3). -/
structure Graph where
  nodes : List (String × (AgentState → StateUpdate))
  edges : List (String × EdgeSpec)
  start : String

/-- Look up a node's processing function by id. -/
def Graph.findNode (g : Graph) (id : String) : Option (AgentState → StateUpdate) :=
  (g.nodes.find? (fun p => p.1 == id)).map Prod.snd

/-- Look up the (unique) edge out of a node. -/
def Graph.findEdge (g : Graph) (id : String) : Option EdgeSpec :=
  (g.edges.find? (fun p => p.1 == id)).map Prod.snd

/-- Whether an id is a registered node. -/
def Graph.isRegistered (g : Graph) (id : String) : Bool :=
  g.nodes.any (fun p => p.1 == id)

/-- Modelled from the spec: section 4.2 Execution Engine loop body, with
`fuel` the number of remaining steps (`maxSteps - steps`).  Besides the
run outcome it returns the trace of executed node ids, so that step counts
and node-execution counts can be stated.  The engine: return state at END;
fail with ExecutionLimitExceeded when the step bound is hit; execute the
current node and merge its update; resolve the next target by static edge
or router; validate the target is registered or END, else RoutingError;
a missing node or edge is a configuration fault. -/
def runAux (g : Graph) : Nat → String → AgentState → Except RunError AgentState × List String
  | 0, current, state =>
      if current = END then (Except.ok state, [])
      else (Except.error RunError.ExecutionLimitExceeded, [])
  | fuel + 1, current, state =>
      if current = END then (Except.ok state, [])
      else
        match g.findNode current with
        | none => (Except.error RunError.ConfigurationError, [])
        | some proc =>
          match g.findEdge current with
          | none => (Except.error RunError.ConfigurationError, [current])
          | some (EdgeSpec.toNode target) =>
            if target = END ∨ g.isRegistered target = true then
              let r := runAux g fuel target (mergeState state (proc state))
              (r.1, current :: r.2)
            else (Except.error RunError.RoutingError, [current])
          | some (EdgeSpec.byRouter router) =>
            let target := router (mergeState state (proc state))
            if target = END ∨ g.isRegistered target = true then
              let r := runAux g fuel target (mergeState state (proc state))
              (r.1, current :: r.2)
            else (Except.error RunError.RoutingError, [current])

/-- Modelled from the spec: `invoke(graph, initialState, maxSteps) → finalState`
(spec section 4.2). -/
def invoke (g : Graph) (init : AgentState) (maxSteps : Nat) : Except RunError AgentState :=
  (runAux g maxSteps g.start init).1

/-- The ids of the nodes executed by a run, in order. -/
def invokeTrace (g : Graph) (init : AgentState) (maxSteps : Nat) : List String :=
  (runAux g maxSteps g.start init).2

/-- Whether `pat` occurs at the start of `l`. -/
def startsWith : List Char → List Char → Bool
  | _, [] => true
  | [], _ :: _ => false
  | c :: cs, p :: ps => c = p && startsWith cs ps

/-- Whether the character sequence `pat` occurs contiguously anywhere in `l`. -/
def containsSeq : List Char → List Char → Bool
  | l, pat =>
    startsWith l pat ||
      match l with
      | [] => false
      | _ :: cs => containsSeq cs pat

/-- Substring containment, modelling Python's `pat in s` on strings. -/
def strContains (s pat : String) : Bool :=
  containsSeq s.data pat.data

/-- ASCII lowercasing of one character, modelling Python's `str.lower()`
on the ASCII range (the only range the routing labels use). -/
def lowerChar (c : Char) : Char :=
  if 'A' ≤ c ∧ c ≤ 'Z' then Char.ofNat (c.toNat + 32) else c

/-- Python's `str.strip()`: drop whitespace from both ends. -/
def pyStrip (s : String) : String :=
  ⟨((s.data.dropWhile Char.isWhitespace).reverse.dropWhile Char.isWhitespace).reverse⟩

/-- Python's `str.lower()` (ASCII model). -/
def pyLower (s : String) : String :=
  ⟨s.data.map lowerChar⟩

/-- `route_next` from `src/handoff_pattern.py` lines 18-25: END when
`task_complete` is truthy; else follow `next_agent` (default "finish")
when it is one of the three specialist ids, else END. -/
def route_next (state : AgentState) : String :=
  if state.task_complete.getD false then END
  else
    let next_agent := state.next_agent.getD "finish"
    if next_agent ∈ (["technical", "creative", "data"] : List String) then next_agent
    else END

/-- `SupervisorAgent.route` from `src/supervisor_swarm.py` lines 84-101.
The language-model call is the oracle `llm`; its free-text reply is
stripped and lowercased, then matched by substring containment in the
fixed order finish, researcher, writer, reviewer, falling back to
"finish". -/
def SupervisorAgent.route (llm : List Message → String) (messages : List Message) : String :=
  let next_agent := pyLower (pyStrip (llm messages))
  if strContains next_agent "finish" then "finish"
  else if strContains next_agent "researcher" then "researcher"
  else if strContains next_agent "writer" then "writer"
  else if strContains next_agent "reviewer" then "reviewer"
  else "finish"

/-- `supervisor_router` from `src/supervisor_swarm.py` lines 127-131:
classify via `SupervisorAgent.route`, map "finish" to END, otherwise
return the classified agent id. -/
def supervisor_router (supLLM : List Message → String) (state : AgentState) : String :=
  let next_agent := SupervisorAgent.route supLLM state.messages
  if next_agent = "finish" then END
  else next_agent

/-- A specialist node's processing function (`ResearchAgent.process`,
`WriterAgent.process`, `ReviewerAgent.process` in `src/supervisor_swarm.py`):
call the model on the conversation and return the single response message
as the update. -/
def specialistProcess (llm : List Message → Message) (s : AgentState) : StateUpdate :=
  { messages := [llm s.messages] }

/-- `create_supervisor_swarm` from `src/supervisor_swarm.py` lines 104-140:
three specialist nodes plus a pass-through supervisor node; START edge to
the supervisor; a conditional edge out of the supervisor driven by
`supervisor_router`; static edges from every specialist back to the
supervisor.  The agents' model calls are oracle parameters. -/
def create_supervisor_swarm (supLLM : List Message → String)
    (researcherLLM writerLLM reviewerLLM : List Message → Message) : Graph :=
  { nodes := [("researcher", specialistProcess researcherLLM),
              ("writer", specialistProcess writerLLM),
              ("reviewer", specialistProcess reviewerLLM),
              ("supervisor", fun state => { messages := state.messages })]
    edges := [("researcher", EdgeSpec.toNode "supervisor"),
              ("writer", EdgeSpec.toNode "supervisor"),
              ("reviewer", EdgeSpec.toNode "supervisor"),
              ("supervisor", EdgeSpec.byRouter (supervisor_router supLLM))]
    start := "supervisor" }

/-- `create_handoff_swarm` from `src/handoff_pattern.py` lines 1-34: four
nodes (triage, technical, creative, data) whose processing functions are
the agents' `process` methods (agent classes not present under src, hence
parameters); START edge to triage; every node gets the shared conditional
router `route_next`. -/
def create_handoff_swarm (triageProc technicalProc creativeProc dataProc :
    AgentState → StateUpdate) : Graph :=
  { nodes := [("triage", triageProc),
              ("technical", technicalProc),
              ("creative", creativeProc),
              ("data", dataProc)]
    edges := [("triage", EdgeSpec.byRouter route_next),
              ("technical", EdgeSpec.byRouter route_next),
              ("creative", EdgeSpec.byRouter route_next),
              ("data", EdgeSpec.byRouter route_next)]
    start := "triage" }

example : route_next { messages := [], next_agent := some "creative" } = "creative" := by decide

example : SupervisorAgent.route (fun _ => "  The Writer, or FINISH?") [] = "finish" := by decide

example : supervisor_router (fun _ => "researcher") { messages := [] } = "researcher" := by decide

/-! Unfolding lemmas for the engine loop. -/

lemma runAux_end (g : Graph) (fuel : Nat) (s : AgentState) :
    runAux g fuel END s = (Except.ok s, []) := by
  cases fuel <;> rw [runAux] <;> rw [if_pos rfl]

lemma runAux_zero (g : Graph) (c : String) (s : AgentState) (hc : ¬ c = END) :
    runAux g 0 c s = (Except.error RunError.ExecutionLimitExceeded, []) := by
  rw [runAux, if_neg hc]

lemma runAux_succ_byRouter (g : Graph) (fuel : Nat) (c : String) (s : AgentState)
    (proc : AgentState → StateUpdate) (router : AgentState → String)
    (hc : ¬ c = END) (hn : g.findNode c = some proc)
    (he : g.findEdge c = some (EdgeSpec.byRouter router)) :
    runAux g (fuel + 1) c s =
      if router (mergeState s (proc s)) = END ∨
          g.isRegistered (router (mergeState s (proc s))) = true then
        ((runAux g fuel (router (mergeState s (proc s))) (mergeState s (proc s))).1,
          c :: (runAux g fuel (router (mergeState s (proc s))) (mergeState s (proc s))).2)
      else (Except.error RunError.RoutingError, [c]) := by
  rw [runAux, if_neg hc, hn, he]

lemma runAux_succ_toNode (g : Graph) (fuel : Nat) (c : String) (s : AgentState)
    (proc : AgentState → StateUpdate) (t : String)
    (hc : ¬ c = END) (hn : g.findNode c = some proc)
    (he : g.findEdge c = some (EdgeSpec.toNode t)) :
    runAux g (fuel + 1) c s =
      if t = END ∨ g.isRegistered t = true then
        ((runAux g fuel t (mergeState s (proc s))).1,
          c :: (runAux g fuel t (mergeState s (proc s))).2)
      else (Except.error RunError.RoutingError, [c]) := by
  rw [runAux, if_neg hc, hn, he]

/-- C4: whenever the task_complete control field is set, `route_next`
returns END regardless of the value of next_agent — completion overrides
any named routing target. -/
theorem route_next_complete_overrides (s : AgentState)
    (h : s.task_complete = some true) : route_next s = END := by
  simp [route_next, h]

theorem route_next_complete_overrides_witness :
    route_next { messages := [], next_agent := some "technical", task_complete := some true } = END :=
  route_next_complete_overrides _ rfl

/-- C6: when task_complete is unset or false, `route_next` returns the
next_agent field when it names one of the reachable specialist nodes, and
END when the field is absent or names an unrecognized node. -/
theorem route_next_follows_next_agent (s : AgentState)
    (h : s.task_complete = none ∨ s.task_complete = some false) :
    (∀ a, s.next_agent = some a →
      a ∈ (["technical", "creative", "data"] : List String) → route_next s = a) ∧
    (s.next_agent = none → route_next s = END) ∧
    (∀ a, s.next_agent = some a →
      a ∉ (["technical", "creative", "data"] : List String) → route_next s = END) := by
  have hg : s.task_complete.getD false = false := by
    rcases h with h | h <;> simp [h]
  refine ⟨?_, ?_, ?_⟩
  · intro a ha hmem
    simp [route_next, hg, ha, hmem]
  · intro ha
    simp [route_next, hg, ha]
  · intro a ha hmem
    simp [route_next, hg, ha, hmem]

theorem route_next_follows_next_agent_witness :
    route_next { messages := [], next_agent := some "creative", task_complete := some false } = "creative" :=
  (route_next_follows_next_agent _ (Or.inr rfl)).1 "creative" rfl (by decide)

/-- C3: the supervisor's classifier parses free text by normalized substring
containment in the fixed priority order finish, researcher, writer,
reviewer: any response containing "finish" is classified "finish" even if
other labels occur, otherwise the first contained label wins. -/
theorem route_priority (llm : List Message → String) (msgs : List Message) :
    (strContains (pyLower (pyStrip (llm msgs))) "finish" = true →
      SupervisorAgent.route llm msgs = "finish") ∧
    (strContains (pyLower (pyStrip (llm msgs))) "finish" = false →
      strContains (pyLower (pyStrip (llm msgs))) "researcher" = true →
      SupervisorAgent.route llm msgs = "researcher") ∧
    (strContains (pyLower (pyStrip (llm msgs))) "finish" = false →
      strContains (pyLower (pyStrip (llm msgs))) "researcher" = false →
      strContains (pyLower (pyStrip (llm msgs))) "writer" = true →
      SupervisorAgent.route llm msgs = "writer") ∧
    (strContains (pyLower (pyStrip (llm msgs))) "finish" = false →
      strContains (pyLower (pyStrip (llm msgs))) "researcher" = false →
      strContains (pyLower (pyStrip (llm msgs))) "writer" = false →
      strContains (pyLower (pyStrip (llm msgs))) "reviewer" = true →
      SupervisorAgent.route llm msgs = "reviewer") := by
  refine ⟨?_, ?_, ?_, ?_⟩ <;> intros <;> simp [SupervisorAgent.route, *]

theorem route_priority_witness :
    strContains (pyLower (pyStrip "The writer should FINISH now")) "finish" = true ∧
    SupervisorAgent.route (fun _ => "The writer should FINISH now") [] = "finish" :=
  ⟨by decide, (route_priority (fun _ => "The writer should FINISH now") []).1 (by decide)⟩

/-- No known routing label occurs in a normalized classifier output. -/
def noLabel (s : String) : Bool :=
  !strContains s "finish" && !strContains s "researcher" &&
    !strContains s "writer" && !strContains s "reviewer"

lemma route_noLabel (llm : List Message → String) (msgs : List Message)
    (h : noLabel (pyLower (pyStrip (llm msgs))) = true) :
    SupervisorAgent.route llm msgs = "finish" := by
  simp only [noLabel, Bool.and_eq_true, Bool.not_eq_true'] at h
  obtain ⟨⟨⟨h1, h2⟩, h3⟩, h4⟩ := h
  simp [SupervisorAgent.route, h1, h2, h3, h4]

lemma router_noLabel (supLLM : List Message → String) (s : AgentState)
    (h : noLabel (pyLower (pyStrip (supLLM s.messages))) = true) :
    supervisor_router supLLM s = END := by
  simp [supervisor_router, route_noLabel _ _ h]

/-! Registry lookups in the two concrete graphs, by computation. -/

lemma sup_start (supLLM : List Message → String) (rL wL vL : List Message → Message) :
    (create_supervisor_swarm supLLM rL wL vL).start = "supervisor" := rfl

lemma sup_findNode_supervisor (supLLM : List Message → String)
    (rL wL vL : List Message → Message) :
    (create_supervisor_swarm supLLM rL wL vL).findNode "supervisor" =
      some (fun state => { messages := state.messages }) := rfl

lemma sup_findEdge_supervisor (supLLM : List Message → String)
    (rL wL vL : List Message → Message) :
    (create_supervisor_swarm supLLM rL wL vL).findEdge "supervisor" =
      some (EdgeSpec.byRouter (supervisor_router supLLM)) := rfl

lemma sup_findNode_researcher (supLLM : List Message → String)
    (rL wL vL : List Message → Message) :
    (create_supervisor_swarm supLLM rL wL vL).findNode "researcher" =
      some (specialistProcess rL) := rfl

lemma sup_findEdge_researcher (supLLM : List Message → String)
    (rL wL vL : List Message → Message) :
    (create_supervisor_swarm supLLM rL wL vL).findEdge "researcher" =
      some (EdgeSpec.toNode "supervisor") := rfl

lemma sup_findNode_writer (supLLM : List Message → String)
    (rL wL vL : List Message → Message) :
    (create_supervisor_swarm supLLM rL wL vL).findNode "writer" =
      some (specialistProcess wL) := rfl

lemma sup_findEdge_writer (supLLM : List Message → String)
    (rL wL vL : List Message → Message) :
    (create_supervisor_swarm supLLM rL wL vL).findEdge "writer" =
      some (EdgeSpec.toNode "supervisor") := rfl

lemma sup_findNode_reviewer (supLLM : List Message → String)
    (rL wL vL : List Message → Message) :
    (create_supervisor_swarm supLLM rL wL vL).findNode "reviewer" =
      some (specialistProcess vL) := rfl

lemma sup_findEdge_reviewer (supLLM : List Message → String)
    (rL wL vL : List Message → Message) :
    (create_supervisor_swarm supLLM rL wL vL).findEdge "reviewer" =
      some (EdgeSpec.toNode "supervisor") := rfl

/-- C5: classifier output containing none of the known labels makes the
classifier fall back to "finish", makes `supervisor_router` resolve to
END, and makes a full run of the supervisor graph return normally (no
error) after the single supervisor execution. -/
theorem malformed_output_graceful :
    (∀ (supLLM : List Message → String) (msgs : List Message),
      noLabel (pyLower (pyStrip (supLLM msgs))) = true →
      SupervisorAgent.route supLLM msgs = "finish") ∧
    (∀ (supLLM : List Message → String) (s : AgentState),
      noLabel (pyLower (pyStrip (supLLM s.messages))) = true →
      supervisor_router supLLM s = END) ∧
    (∀ (supLLM : List Message → String)
      (rL wL vL : List Message → Message) (init : AgentState) (m : Nat),
      (∀ msgs, noLabel (pyLower (pyStrip (supLLM msgs))) = true) →
      invoke (create_supervisor_swarm supLLM rL wL vL) init (m + 1) =
        Except.ok (mergeState init { messages := init.messages })) := by
  refine ⟨route_noLabel, router_noLabel, ?_⟩
  intro supLLM rL wL vL init m hno
  unfold invoke
  rw [sup_start, runAux_succ_byRouter _ m _ init _ _ (by decide)
    (sup_findNode_supervisor supLLM rL wL vL) (sup_findEdge_supervisor supLLM rL wL vL)]
  rw [router_noLabel _ _ (hno _), if_pos (Or.inl rfl), runAux_end]

theorem malformed_output_graceful_witness :
    invoke
      (create_supervisor_swarm (fun _ => "banana?")
        (fun _ => { role := "assistant", content := "r" })
        (fun _ => { role := "assistant", content := "w" })
        (fun _ => { role := "assistant", content := "v" }))
      { messages := [{ role := "human", content := "task" }] } 1 =
    Except.ok { messages := [{ role := "human", content := "task" },
      { role := "human", content := "task" }] } :=
  malformed_output_graceful.2.2 (fun _ => "banana?")
    (fun _ => { role := "assistant", content := "r" })
    (fun _ => { role := "assistant", content := "w" })
    (fun _ => { role := "assistant", content := "v" })
    { messages := [{ role := "human", content := "task" }] } 0
    (fun _ => of_decide_eq_true rfl)

/-! Generic run lemmas: the executed-step count is bounded by the fuel, and
a successful run only extends the message sequence. -/

lemma runAux_succ_noNode (g : Graph) (fuel : Nat) (c : String) (s : AgentState)
    (hc : ¬ c = END) (hn : g.findNode c = none) :
    runAux g (fuel + 1) c s = (Except.error RunError.ConfigurationError, []) := by
  rw [runAux, if_neg hc, hn]

lemma runAux_succ_noEdge (g : Graph) (fuel : Nat) (c : String) (s : AgentState)
    (proc : AgentState → StateUpdate)
    (hc : ¬ c = END) (hn : g.findNode c = some proc) (he : g.findEdge c = none) :
    runAux g (fuel + 1) c s = (Except.error RunError.ConfigurationError, [c]) := by
  rw [runAux, if_neg hc, hn, he]

lemma trace_length_le (g : Graph) : ∀ (fuel : Nat) (c : String) (s : AgentState),
    (runAux g fuel c s).2.length ≤ fuel := by
  intro fuel
  induction fuel with
  | zero =>
    intro c s
    by_cases hc : c = END
    · subst hc; rw [runAux_end]; simp
    · rw [runAux_zero g c s hc]; simp
  | succ n ih =>
    intro c s
    by_cases hc : c = END
    · subst hc; rw [runAux_end]; simp
    · cases hn : g.findNode c with
      | none => rw [runAux_succ_noNode g n c s hc hn]; simp
      | some proc =>
        cases he : g.findEdge c with
        | none => rw [runAux_succ_noEdge g n c s proc hc hn he]; simp
        | some e =>
          cases e with
          | toNode t =>
            rw [runAux_succ_toNode g n c s proc t hc hn he]
            by_cases hv : t = END ∨ g.isRegistered t = true
            · rw [if_pos hv]
              exact Nat.succ_le_succ (ih _ _)
            · rw [if_neg hv]
              exact Nat.succ_le_succ (Nat.zero_le n)
          | byRouter router =>
            rw [runAux_succ_byRouter g n c s proc router hc hn he]
            by_cases hv : router (mergeState s (proc s)) = END ∨
                g.isRegistered (router (mergeState s (proc s))) = true
            · rw [if_pos hv]
              exact Nat.succ_le_succ (ih _ _)
            · rw [if_neg hv]
              exact Nat.succ_le_succ (Nat.zero_le n)

lemma mergeState_messages (s : AgentState) (u : StateUpdate) :
    (mergeState s u).messages = s.messages ++ u.messages := rfl

lemma run_messages_mono (g : Graph) : ∀ (fuel : Nat) (c : String) (s fin : AgentState),
    (runAux g fuel c s).1 = Except.ok fin → s.messages <+: fin.messages := by
  intro fuel
  induction fuel with
  | zero =>
    intro c s fin h
    by_cases hc : c = END
    · subst hc; rw [runAux_end] at h
      simp at h; subst h; exact List.prefix_rfl
    · rw [runAux_zero g c s hc] at h; simp at h
  | succ n ih =>
    intro c s fin h
    by_cases hc : c = END
    · subst hc; rw [runAux_end] at h
      simp at h; subst h; exact List.prefix_rfl
    · cases hn : g.findNode c with
      | none =>
        rw [runAux_succ_noNode g n c s hc hn] at h
        simp at h
      | some proc =>
        cases he : g.findEdge c with
        | none =>
          rw [runAux_succ_noEdge g n c s proc hc hn he] at h
          simp at h
        | some e =>
          cases e with
          | toNode t =>
            rw [runAux_succ_toNode g n c s proc t hc hn he] at h
            by_cases hv : t = END ∨ g.isRegistered t = true
            · rw [if_pos hv] at h
              exact (List.prefix_append s.messages (proc s).messages).trans (ih _ _ _ h)
            · rw [if_neg hv] at h; simp at h
          | byRouter router =>
            rw [runAux_succ_byRouter g n c s proc router hc hn he] at h
            by_cases hv : router (mergeState s (proc s)) = END ∨
                g.isRegistered (router (mergeState s (proc s))) = true
            · rw [if_pos hv] at h
              exact (List.prefix_append s.messages (proc s).messages).trans (ih _ _ _ h)
            · rw [if_neg hv] at h; simp at h

/-- C2: the message sequence is append-only: every merge keeps the previous
messages as a strict left segment (so the sequence at step k begins every
later sequence), hence a successful run's initial messages begin the final
messages and the length never decreases; the supervisor node's pass-through
update appends a copy of the current messages under the concatenation
merge rule. -/
theorem messages_append_only :
    (∀ (s : AgentState) (u : StateUpdate), s.messages <+: (mergeState s u).messages) ∧
    (∀ (s : AgentState),
      (mergeState s { messages := s.messages }).messages = s.messages ++ s.messages) ∧
    (∀ (g : Graph) (fuel : Nat) (c : String) (s fin : AgentState),
      (runAux g fuel c s).1 = Except.ok fin →
        s.messages <+: fin.messages ∧ s.messages.length ≤ fin.messages.length) := by
  refine ⟨?_, ?_, ?_⟩
  · intro s u
    exact ⟨u.messages, rfl⟩
  · intro s
    rfl
  · intro g fuel c s fin h
    have hp := run_messages_mono g fuel c s fin h
    exact ⟨hp, hp.length_le⟩

def c2Graph : Graph :=
  create_handoff_swarm
    (fun _ => { messages := [{ role := "assistant", content := "done" }],
                task_complete := some true })
    (fun _ => { messages := [] }) (fun _ => { messages := [] })
    (fun _ => { messages := [] })

def c2Init : AgentState := { messages := [{ role := "human", content := "hi" }] }

def c2Final : AgentState :=
  { messages := [{ role := "human", content := "hi" },
                 { role := "assistant", content := "done" }],
    task_complete := some true }

theorem messages_append_only_witness :
    c2Init.messages <+: c2Final.messages ∧
      c2Init.messages.length ≤ c2Final.messages.length :=
  messages_append_only.2.2 c2Graph 3 "triage" c2Init c2Final rfl

/-! The supervisor graph with a classifier stuck on "researcher" cycles
supervisor to researcher and back forever, so every finite fuel ends in
ExecutionLimitExceeded. -/

lemma cyc_router (s : AgentState) :
    supervisor_router (fun _ => "researcher") s = "researcher" := rfl

lemma cyc_aux (rL wL vL : List Message → Message) (fuel : Nat) :
    (∀ s, (runAux (create_supervisor_swarm (fun _ => "researcher") rL wL vL)
      fuel "supervisor" s).1 = Except.error RunError.ExecutionLimitExceeded) ∧
    (∀ s, (runAux (create_supervisor_swarm (fun _ => "researcher") rL wL vL)
      fuel "researcher" s).1 = Except.error RunError.ExecutionLimitExceeded) := by
  induction fuel with
  | zero =>
    constructor <;> intro s <;> rw [runAux_zero _ _ _ (by decide)]
  | succ n ih =>
    constructor
    · intro s
      exact ih.2 (mergeState s { messages := s.messages })
    · intro s
      exact ih.1 (mergeState s (specialistProcess rL s))

/-- C1: every run of the engine returns a final state (reaching END) or
fails with one of ExecutionLimitExceeded, RoutingError,
ConfigurationError; a run never executes more than maxSteps nodes; and the
supervisor graph with a conditional edge that always routes back into the
specialist-supervisor cycle ends in ExecutionLimitExceeded for every
finite maxSteps. -/
theorem run_terminates_or_errors :
    (∀ (g : Graph) (init : AgentState) (maxSteps : Nat),
      (∃ fin, invoke g init maxSteps = Except.ok fin) ∨
      invoke g init maxSteps = Except.error RunError.ExecutionLimitExceeded ∨
      invoke g init maxSteps = Except.error RunError.RoutingError ∨
      invoke g init maxSteps = Except.error RunError.ConfigurationError) ∧
    (∀ (g : Graph) (init : AgentState) (maxSteps : Nat),
      (invokeTrace g init maxSteps).length ≤ maxSteps) ∧
    (∀ (rL wL vL : List Message → Message) (init : AgentState) (maxSteps : Nat),
      invoke (create_supervisor_swarm (fun _ => "researcher") rL wL vL) init maxSteps =
        Except.error RunError.ExecutionLimitExceeded) := by
  refine ⟨?_, ?_, ?_⟩
  · intro g init maxSteps
    cases h : invoke g init maxSteps with
    | error e =>
      cases e with
      | ConfigurationError => exact Or.inr (Or.inr (Or.inr rfl))
      | RoutingError => exact Or.inr (Or.inr (Or.inl rfl))
      | ExecutionLimitExceeded => exact Or.inr (Or.inl rfl)
    | ok fin => exact Or.inl ⟨fin, rfl⟩
  · intro g init maxSteps
    exact trace_length_le g maxSteps g.start init
  · intro rL wL vL init maxSteps
    exact (cyc_aux rL wL vL maxSteps).1 init

/-! Scenario B of the spec: the classifier asks for the researcher on its
first consultation and FINISH on its second.  The router is consulted
after the supervisor's pass-through merge, so the first consultation sees
2 messages and the second sees 6 (the pass-through doubles the history
under the concatenation merge rule). -/

/-- Scenario B classifier: "researcher" while at most 2 messages have
accumulated, then "FINISH". -/
def scenarioBClassifier (msgs : List Message) : String :=
  if msgs.length ≤ 2 then "researcher" else "FINISH"

def bTask : Message := { role := "human", content := "task" }

def bNote : Message := { role := "assistant", content := "research notes" }

def bGraph : Graph :=
  create_supervisor_swarm scenarioBClassifier
    (fun _ => bNote) (fun _ => bNote) (fun _ => bNote)

def bInit : AgentState := { messages := [bTask] }

def bFinal : AgentState :=
  { messages := [bTask, bTask, bNote, bTask, bTask, bNote] }

/-- C7 counterexample: in the concrete Scenario B run (coordinator
classifies "researcher" then "FINISH", researcher appends one message),
the run succeeds with 6 final messages, not initial + 2 = 3: the
supervisor's pass-through update duplicates the whole history under the
concatenation merge rule, so the "+2" accounting fails. -/
theorem scenarioB_plus_two_fails :
    invoke bGraph bInit 10 = Except.ok bFinal ∧
    bFinal.messages.length = 6 ∧
    bInit.messages.length + 2 = 3 ∧
    (6 : Nat) ≠ 3 :=
  ⟨rfl, rfl, rfl, by decide⟩

set_option maxHeartbeats 1600000 in
/-- C7 amended: in Scenario B (any single initial task message, any
specialist oracles) exactly one specialist — the researcher — executes
before termination, and the final message count is 4 * initial + 2 = 6:
one doubling by the first supervisor pass-through, one researcher
message, then a second doubling by the final supervisor pass-through. -/
theorem scenarioB_amended (t : Message) (rL wL vL : List Message → Message) :
    invoke (create_supervisor_swarm scenarioBClassifier rL wL vL)
        { messages := [t] } 10 =
      Except.ok { messages := [t, t, rL [t, t], t, t, rL [t, t]] } ∧
    ([t, t, rL [t, t], t, t, rL [t, t]] : List Message).length =
      4 * ([t] : List Message).length + 2 ∧
    invokeTrace (create_supervisor_swarm scenarioBClassifier rL wL vL)
        { messages := [t] } 10 = ["supervisor", "researcher", "supervisor"] ∧
    (["supervisor", "researcher", "supervisor"] : List String).count "researcher" = 1 ∧
    (["supervisor", "researcher", "supervisor"] : List String).count "writer" = 0 ∧
    (["supervisor", "researcher", "supervisor"] : List String).count "reviewer" = 0 :=
  ⟨rfl, rfl, rfl, rfl, rfl, rfl⟩

/-! The supervisor router's image is the three specialists plus END, so
the engine's RoutingError branch can never fire on the supervisor graph. -/

lemma supervisor_route_cases (llm : List Message → String) (msgs : List Message) :
    SupervisorAgent.route llm msgs = "finish" ∨
    SupervisorAgent.route llm msgs = "researcher" ∨
    SupervisorAgent.route llm msgs = "writer" ∨
    SupervisorAgent.route llm msgs = "reviewer" := by
  simp only [SupervisorAgent.route]
  split
  · exact Or.inl rfl
  · split
    · exact Or.inr (Or.inl rfl)
    · split
      · exact Or.inr (Or.inr (Or.inl rfl))
      · split
        · exact Or.inr (Or.inr (Or.inr rfl))
        · exact Or.inl rfl

lemma supervisor_router_cases (supLLM : List Message → String) (s : AgentState) :
    supervisor_router supLLM s = "researcher" ∨
    supervisor_router supLLM s = "writer" ∨
    supervisor_router supLLM s = "reviewer" ∨
    supervisor_router supLLM s = END := by
  unfold supervisor_router
  rcases supervisor_route_cases supLLM s.messages with h | h | h | h <;> rw [h] <;> simp

lemma sup_registered (supLLM : List Message → String) (rL wL vL : List Message → Message) :
    (create_supervisor_swarm supLLM rL wL vL).isRegistered "researcher" = true ∧
    (create_supervisor_swarm supLLM rL wL vL).isRegistered "writer" = true ∧
    (create_supervisor_swarm supLLM rL wL vL).isRegistered "reviewer" = true ∧
    (create_supervisor_swarm supLLM rL wL vL).isRegistered "supervisor" = true :=
  ⟨rfl, rfl, rfl, rfl⟩

lemma sup_run_ok_or_limit (supLLM : List Message → String)
    (rL wL vL : List Message → Message) :
    ∀ (fuel : Nat) (c : String) (s : AgentState),
      (c = "supervisor" ∨ c = "researcher" ∨ c = "writer" ∨ c = "reviewer" ∨ c = END) →
      (∃ fin, (runAux (create_supervisor_swarm supLLM rL wL vL) fuel c s).1 =
        Except.ok fin) ∨
      (runAux (create_supervisor_swarm supLLM rL wL vL) fuel c s).1 =
        Except.error RunError.ExecutionLimitExceeded := by
  intro fuel
  induction fuel with
  | zero =>
    intro c s hmem
    by_cases hc : c = END
    · subst hc; rw [runAux_end]; exact Or.inl ⟨s, rfl⟩
    · rw [runAux_zero _ _ _ hc]; exact Or.inr rfl
  | succ n ih =>
    intro c s hmem
    rcases hmem with hc | hc | hc | hc | hc <;> subst hc
    · rw [runAux_succ_byRouter _ n _ s _ _ (by decide)
        (sup_findNode_supervisor supLLM rL wL vL) (sup_findEdge_supervisor supLLM rL wL vL)]
      rcases supervisor_router_cases supLLM
          (mergeState s { messages := s.messages }) with h | h | h | h <;> rw [h]
      · rw [if_pos (Or.inr (sup_registered supLLM rL wL vL).1)]
        exact ih _ _ (Or.inr (Or.inl rfl))
      · rw [if_pos (Or.inr (sup_registered supLLM rL wL vL).2.1)]
        exact ih _ _ (Or.inr (Or.inr (Or.inl rfl)))
      · rw [if_pos (Or.inr (sup_registered supLLM rL wL vL).2.2.1)]
        exact ih _ _ (Or.inr (Or.inr (Or.inr (Or.inl rfl))))
      · rw [if_pos (Or.inl rfl), runAux_end]
        exact Or.inl ⟨mergeState s { messages := s.messages }, rfl⟩
    · rw [runAux_succ_toNode _ n _ s _ _ (by decide)
        (sup_findNode_researcher supLLM rL wL vL) (sup_findEdge_researcher supLLM rL wL vL)]
      rw [if_pos (Or.inr (sup_registered supLLM rL wL vL).2.2.2)]
      exact ih _ _ (Or.inl rfl)
    · rw [runAux_succ_toNode _ n _ s _ _ (by decide)
        (sup_findNode_writer supLLM rL wL vL) (sup_findEdge_writer supLLM rL wL vL)]
      rw [if_pos (Or.inr (sup_registered supLLM rL wL vL).2.2.2)]
      exact ih _ _ (Or.inl rfl)
    · rw [runAux_succ_toNode _ n _ s _ _ (by decide)
        (sup_findNode_reviewer supLLM rL wL vL) (sup_findEdge_reviewer supLLM rL wL vL)]
      rw [if_pos (Or.inr (sup_registered supLLM rL wL vL).2.2.2)]
      exact ih _ _ (Or.inl rfl)
    · rw [runAux_end]
      exact Or.inl ⟨s, rfl⟩

/-- C9: the supervisor router only ever produces "researcher", "writer",
"reviewer" or END, and a run of the supervisor graph can only return a
final state or ExecutionLimitExceeded — in particular the engine's
fail-closed RoutingError branch is unreachable for the supervisor graph. -/
theorem supervisor_router_closed_image :
    (∀ (supLLM : List Message → String) (s : AgentState),
      supervisor_router supLLM s = "researcher" ∨
      supervisor_router supLLM s = "writer" ∨
      supervisor_router supLLM s = "reviewer" ∨
      supervisor_router supLLM s = END) ∧
    (∀ (supLLM : List Message → String) (rL wL vL : List Message → Message)
      (init : AgentState) (maxSteps : Nat),
      (∃ fin, invoke (create_supervisor_swarm supLLM rL wL vL) init maxSteps =
        Except.ok fin) ∨
      invoke (create_supervisor_swarm supLLM rL wL vL) init maxSteps =
        Except.error RunError.ExecutionLimitExceeded) := by
  refine ⟨supervisor_router_cases, ?_⟩
  intro supLLM rL wL vL init maxSteps
  exact sup_run_ok_or_limit supLLM rL wL vL maxSteps _ init (Or.inl rfl)

/-! In the handoff graph only the START edge targets triage: every edge is
conditional on `route_next`, whose image is the three specialists plus
END.  Hence triage executes exactly once, first, in every run that
executes at all. -/

lemma route_next_cases (s : AgentState) :
    route_next s = "technical" ∨ route_next s = "creative" ∨
    route_next s = "data" ∨ route_next s = END := by
  simp only [route_next]
  split
  · exact Or.inr (Or.inr (Or.inr rfl))
  · split
    · rename_i hmem
      simp only [List.mem_cons, List.not_mem_nil, or_false] at hmem
      rcases hmem with h | h | h
      · exact Or.inl h
      · exact Or.inr (Or.inl h)
      · exact Or.inr (Or.inr (Or.inl h))
    · exact Or.inr (Or.inr (Or.inr rfl))

lemma hand_start (tp xp cp dp : AgentState → StateUpdate) :
    (create_handoff_swarm tp xp cp dp).start = "triage" := rfl

lemma hand_findNode_triage (tp xp cp dp : AgentState → StateUpdate) :
    (create_handoff_swarm tp xp cp dp).findNode "triage" = some tp := rfl

lemma hand_findEdge_triage (tp xp cp dp : AgentState → StateUpdate) :
    (create_handoff_swarm tp xp cp dp).findEdge "triage" =
      some (EdgeSpec.byRouter route_next) := rfl

lemma hand_findNode_technical (tp xp cp dp : AgentState → StateUpdate) :
    (create_handoff_swarm tp xp cp dp).findNode "technical" = some xp := rfl

lemma hand_findEdge_technical (tp xp cp dp : AgentState → StateUpdate) :
    (create_handoff_swarm tp xp cp dp).findEdge "technical" =
      some (EdgeSpec.byRouter route_next) := rfl

lemma hand_findNode_creative (tp xp cp dp : AgentState → StateUpdate) :
    (create_handoff_swarm tp xp cp dp).findNode "creative" = some cp := rfl

lemma hand_findEdge_creative (tp xp cp dp : AgentState → StateUpdate) :
    (create_handoff_swarm tp xp cp dp).findEdge "creative" =
      some (EdgeSpec.byRouter route_next) := rfl

lemma hand_findNode_data (tp xp cp dp : AgentState → StateUpdate) :
    (create_handoff_swarm tp xp cp dp).findNode "data" = some dp := rfl

lemma hand_findEdge_data (tp xp cp dp : AgentState → StateUpdate) :
    (create_handoff_swarm tp xp cp dp).findEdge "data" =
      some (EdgeSpec.byRouter route_next) := rfl

lemma hand_registered (tp xp cp dp : AgentState → StateUpdate) :
    (create_handoff_swarm tp xp cp dp).isRegistered "technical" = true ∧
    (create_handoff_swarm tp xp cp dp).isRegistered "creative" = true ∧
    (create_handoff_swarm tp xp cp dp).isRegistered "data" = true :=
  ⟨rfl, rfl, rfl⟩

lemma hand_no_triage_after (tp xp cp dp : AgentState → StateUpdate) :
    ∀ (fuel : Nat) (c : String) (s : AgentState),
      (c = "technical" ∨ c = "creative" ∨ c = "data" ∨ c = END) →
      "triage" ∉ (runAux (create_handoff_swarm tp xp cp dp) fuel c s).2 := by
  intro fuel
  induction fuel with
  | zero =>
    intro c s hmem
    by_cases hc : c = END
    · subst hc; rw [runAux_end]; simp
    · rw [runAux_zero _ _ _ hc]; simp
  | succ n ih =>
    intro c s hmem
    have step : ∀ (proc : AgentState → StateUpdate),
        "triage" ∉
          (if route_next (mergeState s (proc s)) = END ∨
              (create_handoff_swarm tp xp cp dp).isRegistered
                (route_next (mergeState s (proc s))) = true then
            ((runAux (create_handoff_swarm tp xp cp dp) n
                (route_next (mergeState s (proc s))) (mergeState s (proc s))).1,
              c :: (runAux (create_handoff_swarm tp xp cp dp) n
                (route_next (mergeState s (proc s))) (mergeState s (proc s))).2)
          else (Except.error RunError.RoutingError, [c])).2 := by
      intro proc
      have hcne : ¬ c = "triage" := by
        rcases hmem with h | h | h | h <;> subst h <;> decide
      rcases route_next_cases (mergeState s (proc s)) with h | h | h | h <;> rw [h]
      · rw [if_pos (Or.inr (hand_registered tp xp cp dp).1)]
        simp only [List.mem_cons, not_or]
        exact ⟨fun hh => hcne hh.symm, ih _ _ (Or.inl rfl)⟩
      · rw [if_pos (Or.inr (hand_registered tp xp cp dp).2.1)]
        simp only [List.mem_cons, not_or]
        exact ⟨fun hh => hcne hh.symm, ih _ _ (Or.inr (Or.inl rfl))⟩
      · rw [if_pos (Or.inr (hand_registered tp xp cp dp).2.2)]
        simp only [List.mem_cons, not_or]
        exact ⟨fun hh => hcne hh.symm, ih _ _ (Or.inr (Or.inr (Or.inl rfl)))⟩
      · rw [if_pos (Or.inl rfl), runAux_end]
        simp only [List.mem_cons, List.not_mem_nil, not_or]
        exact ⟨fun hh => hcne hh.symm, fun hh => hh⟩
    rcases hmem with hc | hc | hc | hc <;> subst hc
    · rw [runAux_succ_byRouter _ n _ s _ _ (by decide)
        (hand_findNode_technical tp xp cp dp) (hand_findEdge_technical tp xp cp dp)]
      exact step xp
    · rw [runAux_succ_byRouter _ n _ s _ _ (by decide)
        (hand_findNode_creative tp xp cp dp) (hand_findEdge_creative tp xp cp dp)]
      exact step cp
    · rw [runAux_succ_byRouter _ n _ s _ _ (by decide)
        (hand_findNode_data tp xp cp dp) (hand_findEdge_data tp xp cp dp)]
      exact step dp
    · rw [runAux_end]; simp

lemma hand_trace_succ (tp xp cp dp : AgentState → StateUpdate)
    (init : AgentState) (k : Nat) :
    (invokeTrace (create_handoff_swarm tp xp cp dp) init (k + 1)).head? =
      some "triage" ∧
    (invokeTrace (create_handoff_swarm tp xp cp dp) init (k + 1)).count
      "triage" = 1 := by
  unfold invokeTrace
  rw [hand_start, runAux_succ_byRouter _ k _ init _ _ (by decide)
    (hand_findNode_triage tp xp cp dp) (hand_findEdge_triage tp xp cp dp)]
  have hrest : ∀ (c' : String),
      (c' = "technical" ∨ c' = "creative" ∨ c' = "data" ∨ c' = END) →
      ∀ (s' : AgentState),
        ("triage" :: (runAux (create_handoff_swarm tp xp cp dp) k c' s').2).head? =
          some "triage" ∧
        ("triage" :: (runAux (create_handoff_swarm tp xp cp dp) k c' s').2).count
          "triage" = 1 := by
    intro c' hmem s'
    refine ⟨rfl, ?_⟩
    rw [List.count_cons]
    rw [List.count_eq_zero.mpr (hand_no_triage_after tp xp cp dp k c' s' hmem)]
    simp
  rcases route_next_cases (mergeState init (tp init)) with h | h | h | h <;> rw [h]
  · rw [if_pos (Or.inr (hand_registered tp xp cp dp).1)]
    exact hrest _ (Or.inl rfl) _
  · rw [if_pos (Or.inr (hand_registered tp xp cp dp).2.1)]
    exact hrest _ (Or.inr (Or.inl rfl)) _
  · rw [if_pos (Or.inr (hand_registered tp xp cp dp).2.2)]
    exact hrest _ (Or.inr (Or.inr (Or.inl rfl))) _
  · rw [if_pos (Or.inl rfl)]
    exact hrest _ (Or.inr (Or.inr (Or.inr rfl))) _

/-- C10: `route_next` only ever produces a specialist id or END (never
"triage"); every edge of the handoff graph is the shared conditional
router (so only the START edge targets triage); and every run executes
triage at most once, and exactly once — as the first node — as soon as
the step budget allows any execution at all. -/
theorem triage_runs_once :
    (∀ (s : AgentState),
      route_next s = "technical" ∨ route_next s = "creative" ∨
      route_next s = "data" ∨ route_next s = END) ∧
    (∀ (tp xp cp dp : AgentState → StateUpdate) (p : String × EdgeSpec),
      p ∈ (create_handoff_swarm tp xp cp dp).edges →
        p.2 = EdgeSpec.byRouter route_next) ∧
    (∀ (tp xp cp dp : AgentState → StateUpdate) (init : AgentState) (m : Nat),
      (invokeTrace (create_handoff_swarm tp xp cp dp) init m).count "triage" ≤ 1) ∧
    (∀ (tp xp cp dp : AgentState → StateUpdate) (init : AgentState) (m : Nat),
      1 ≤ m →
      (invokeTrace (create_handoff_swarm tp xp cp dp) init m).head? =
        some "triage" ∧
      (invokeTrace (create_handoff_swarm tp xp cp dp) init m).count
        "triage" = 1) := by
  refine ⟨route_next_cases, ?_, ?_, ?_⟩
  · intro tp xp cp dp p hp
    simp only [create_handoff_swarm, List.mem_cons, List.not_mem_nil, or_false] at hp
    rcases hp with h | h | h | h <;> subst h <;> rfl
  · intro tp xp cp dp init m
    cases m with
    | zero =>
      have h0 : invokeTrace (create_handoff_swarm tp xp cp dp) init 0 = [] := by
        unfold invokeTrace
        rw [hand_start, runAux_zero _ _ _ (by decide)]
      rw [h0]; simp
    | succ k =>
      rw [(hand_trace_succ tp xp cp dp init k).2]
  · intro tp xp cp dp init m hm
    cases m with
    | zero => omega
    | succ k => exact hand_trace_succ tp xp cp dp init k

theorem triage_runs_once_witness :
    (invokeTrace
      (create_handoff_swarm (fun _ => { messages := [], task_complete := some true })
        (fun _ => { messages := [] }) (fun _ => { messages := [] })
        (fun _ => { messages := [] }))
      { messages := [] } 4).head? = some "triage" ∧
    (invokeTrace
      (create_handoff_swarm (fun _ => { messages := [], task_complete := some true })
        (fun _ => { messages := [] }) (fun _ => { messages := [] })
        (fun _ => { messages := [] }))
      { messages := [] } 4).count "triage" = 1 :=
  triage_runs_once.2.2.2 (fun _ => { messages := [], task_complete := some true })
    (fun _ => { messages := [] }) (fun _ => { messages := [] })
    (fun _ => { messages := [] }) { messages := [] } 4 (by decide)

/-! A small-step view of the engine (spec 4.2): one step executes the
current node, merges its update, and resolves a validated target.  Every
router in the embedding is a pure function of State, so the relation is
deterministic, and two terminated step chains from the same configuration
agree on both the final configuration and the step count. -/

/-- One engine step from a non-END node: execute the node, merge its
update, resolve the next target by static edge or router, validate it. -/
inductive Step (g : Graph) : String × AgentState → String × AgentState → Prop
  | toNode (c : String) (s : AgentState) (proc : AgentState → StateUpdate) (t : String)
      (hc : ¬ c = END) (hn : g.findNode c = some proc)
      (he : g.findEdge c = some (EdgeSpec.toNode t))
      (hv : t = END ∨ g.isRegistered t = true) :
      Step g (c, s) (t, mergeState s (proc s))
  | byRouter (c : String) (s : AgentState) (proc : AgentState → StateUpdate)
      (router : AgentState → String) (t : String)
      (hc : ¬ c = END) (hn : g.findNode c = some proc)
      (he : g.findEdge c = some (EdgeSpec.byRouter router))
      (ht : router (mergeState s (proc s)) = t)
      (hv : t = END ∨ g.isRegistered t = true) :
      Step g (c, s) (t, mergeState s (proc s))

/-- Iterated engine steps with an explicit step count. -/
inductive Steps (g : Graph) : Nat → String × AgentState → String × AgentState → Prop
  | refl (cfg : String × AgentState) : Steps g 0 cfg cfg
  | head (n : Nat) (c1 c2 c3 : String × AgentState) :
      Step g c1 c2 → Steps g n c2 c3 → Steps g (n + 1) c1 c3

lemma step_deterministic (g : Graph) (c d1 d2 : String × AgentState)
    (h1 : Step g c d1) (h2 : Step g c d2) : d1 = d2 := by
  cases h1 with
  | toNode c1 s1 p1 t1 hc1 hn1 he1 hv1 =>
    cases h2 with
    | toNode c2 s2 p2 t2 hc2 hn2 he2 hv2 =>
      rw [hn1] at hn2
      injection hn2 with hp
      subst hp
      rw [he1] at he2
      injection he2 with hee
      injection hee with htt
      subst htt
      rfl
    | byRouter c2 s2 p2 r2 t2 hc2 hn2 he2 ht2 hv2 =>
      rw [he1] at he2
      injection he2 with hee
      simp at hee
  | byRouter c1 s1 p1 r1 t1 hc1 hn1 he1 ht1 hv1 =>
    cases h2 with
    | toNode c2 s2 p2 t2 hc2 hn2 he2 hv2 =>
      rw [he1] at he2
      injection he2 with hee
      simp at hee
    | byRouter c2 s2 p2 r2 t2 hc2 hn2 he2 ht2 hv2 =>
      rw [hn1] at hn2
      injection hn2 with hp
      subst hp
      rw [he1] at he2
      injection he2 with hee
      injection hee with hrr
      subst hrr
      rw [ht1] at ht2
      subst ht2
      rfl

lemma steps_deterministic (g : Graph) :
    ∀ (n1 : Nat) (c d1 : String × AgentState), Steps g n1 c d1 →
    ∀ (n2 : Nat) (d2 : String × AgentState), Steps g n2 c d2 →
      d1.1 = END → d2.1 = END → n1 = n2 ∧ d1 = d2 := by
  intro n1 c d1 h1
  induction h1 with
  | refl cfg =>
    intro n2 d2 h2 hend1 hend2
    cases h2 with
    | refl _ => exact ⟨rfl, rfl⟩
    | head n c1 c2 c3 hs hrest =>
      cases hs with
      | toNode c s p t hc hn he hv => exact absurd hend1 hc
      | byRouter c s p r t hc hn he ht hv => exact absurd hend1 hc
  | head n c1 c2 c3 hs hrest ih =>
    intro n2 d2 h2 hend1 hend2
    cases h2 with
    | refl _ =>
      cases hs with
      | toNode c s p t hc hn he hv => exact absurd hend2 hc
      | byRouter c s p r t hc hn he ht hv => exact absurd hend2 hc
    | head m _ c2b _ hsb hrestb =>
      have hcc : c2 = c2b := step_deterministic g c1 c2 c2b hs hsb
      subst hcc
      obtain ⟨hn, hd⟩ := ih _ _ hrestb hend1 hend2
      exact ⟨by omega, hd⟩

/-- C8: the engine is deterministic when every router is a pure function
of State (as all routers of the embedding are): single steps from the same
configuration agree, terminated step chains from the same configuration
have equal length and equal final configuration, and two invocations of
invoke with identical initial State produce identical final State and
identical executed-node traces. -/
theorem run_determinism :
    (∀ (g : Graph) (c d1 d2 : String × AgentState),
      Step g c d1 → Step g c d2 → d1 = d2) ∧
    (∀ (g : Graph) (n1 n2 : Nat) (c d1 d2 : String × AgentState),
      Steps g n1 c d1 → Steps g n2 c d2 → d1.1 = END → d2.1 = END →
        n1 = n2 ∧ d1 = d2) ∧
    (∀ (g : Graph) (s1 s2 : AgentState) (m : Nat), s1 = s2 →
      invoke g s1 m = invoke g s2 m ∧ invokeTrace g s1 m = invokeTrace g s2 m) := by
  refine ⟨step_deterministic, ?_, ?_⟩
  · intro g n1 n2 c d1 d2 h1 h2 he1 he2
    exact steps_deterministic g n1 c d1 h1 n2 d2 h2 he1 he2
  · intro g s1 s2 m h
    subst h
    exact ⟨rfl, rfl⟩

def c8Proc : AgentState → StateUpdate :=
  fun _ => { messages := [], task_complete := some true }

def c8Graph : Graph := create_handoff_swarm c8Proc c8Proc c8Proc c8Proc

def c8s0 : AgentState := { messages := [] }

def c8s1 : AgentState := mergeState c8s0 (c8Proc c8s0)

lemma c8step : Step c8Graph ("triage", c8s0) (END, c8s1) :=
  Step.byRouter "triage" c8s0 c8Proc route_next END
    (by decide) rfl rfl rfl (Or.inl rfl)

theorem run_determinism_witness :
    (1 : Nat) = 1 ∧
      ((END, c8s1) : String × AgentState) = ((END, c8s1) : String × AgentState) :=
  run_determinism.2.1 c8Graph 1 1 ("triage", c8s0) (END, c8s1) (END, c8s1)
    (Steps.head 0 _ _ _ c8step (Steps.refl _))
    (Steps.head 0 _ _ _ c8step (Steps.refl _)) rfl rfl

end AISwarm
